import Mathlib

/-!
Verification of `backend/app/core/resilience.py`, `backend/app/core/cache.py`
and `backend/app/services/phased_analysis.py` (with
`backend/app/services/run_snapshot.py`) against the repository specification.

Times are modelled as integers (`Int`), delays and counters as naturals.
-/

/-! ## Circuit breaker (`resilience.py`, class `CircuitBreaker`) -/

/-- States of the circuit breaker (`CircuitState` in `resilience.py`).
`opened` renders the Python `OPEN` state (`open` is a Lean keyword). -/
inductive CircuitState
  | closed
  | opened
  | halfOpen
deriving DecidableEq

/-- The mutable fields and constructor parameters of `CircuitBreaker`.
`last_failure_time` is `None` or a timestamp, as in the Python source. -/
structure CircuitBreaker where
  failure_threshold : Nat
  success_threshold : Nat
  timeout : Int
  state : CircuitState
  failure_count : Nat
  success_count : Nat
  last_failure_time : Option Int
deriving DecidableEq

/-- `CircuitBreaker.__init__`: starts CLOSED with zero counters. -/
def CircuitBreaker.init (failure_threshold success_threshold : Nat) (timeout : Int) :
    CircuitBreaker :=
  { failure_threshold := failure_threshold
    success_threshold := success_threshold
    timeout := timeout
    state := .closed
    failure_count := 0
    success_count := 0
    last_failure_time := none }

/-- `CircuitBreaker.record_success`. -/
def CircuitBreaker.record_success (b : CircuitBreaker) : CircuitBreaker :=
  if b.state = .halfOpen then
    let b' := { b with success_count := b.success_count + 1 }
    if b'.success_count ≥ b'.success_threshold then
      { b' with state := .closed, failure_count := 0, success_count := 0 }
    else b'
  else if b.state = .closed then
    { b with failure_count := 0 }
  else b

/-- `CircuitBreaker.record_failure`, with `now` standing for `time.time()`. -/
def CircuitBreaker.record_failure (b : CircuitBreaker) (now : Int) : CircuitBreaker :=
  let b' := { b with failure_count := b.failure_count + 1, last_failure_time := some now }
  if b'.state = .halfOpen then
    { b' with state := .opened, success_count := 0 }
  else if b'.failure_count ≥ b'.failure_threshold then
    { b' with state := .opened }
  else b'

/-- `CircuitBreaker.can_attempt`: returns the boolean answer and the
possibly-updated breaker (OPEN may transition to HALF_OPEN as a side effect). -/
def CircuitBreaker.can_attempt (b : CircuitBreaker) (now : Int) : Bool × CircuitBreaker :=
  if b.state = .closed then (true, b)
  else if b.state = .opened then
    match b.last_failure_time with
    | some t =>
      if now - t ≥ b.timeout then
        (true, { b with state := .halfOpen, success_count := 0 })
      else (false, b)
    | none => (false, b)
  else (true, b)

/-- `CircuitBreaker.reset`. -/
def CircuitBreaker.reset (b : CircuitBreaker) : CircuitBreaker :=
  { b with state := .closed, failure_count := 0, success_count := 0, last_failure_time := none }

/-- Applying `record_failure` at times `ts 0, ts 1, ...`, `k` times in a row. -/
def CircuitBreaker.iterate_failures (b : CircuitBreaker) (ts : Nat → Int) : Nat → CircuitBreaker
  | 0 => b
  | k + 1 => (b.iterate_failures ts k).record_failure (ts k)

/-- One public operation on a breaker, with its `time.time()` value where used. -/
inductive BreakerOp
  | success
  | failure (now : Int)
  | attempt (now : Int)
  | reset
deriving DecidableEq

/-- State transition of one breaker operation (the result of `can_attempt`
is discarded; only its state mutation matters here). -/
def BreakerOp.apply (b : CircuitBreaker) : BreakerOp → CircuitBreaker
  | .success => b.record_success
  | .failure now => b.record_failure now
  | .attempt now => (b.can_attempt now).2
  | .reset => b.reset

/-- The specification invariant: OPEN implies `last_failure_time` is set, and
CLOSED implies `failure_count` is below the threshold. -/
def breakerInv (b : CircuitBreaker) : Prop :=
  (b.state = .opened → b.last_failure_time.isSome = true) ∧
  (b.state = .closed → b.failure_count < b.failure_threshold)

instance (b : CircuitBreaker) : Decidable (breakerInv b) := by
  unfold breakerInv; infer_instance

/-! ## Retry (`resilience.py`, `with_retry` and `with_async_retry`) -/

/-- Outcome of a retried call: success, the propagated failure of the last
attempt, or the `RuntimeError("Retry logic failed unexpectedly")` path. -/
inductive RetryResult (ε α : Type)
  | ok (a : α)
  | err (e : ε)
  | internalError
deriving DecidableEq

/-- Observable trace of one `with_async_retry` execution: the outcome, how
many times the operation was invoked, and the sleeps performed in order. -/
structure RetryTrace (ε α : Type) where
  result : RetryResult ε α
  calls : Nat
  delays : List Nat
deriving DecidableEq

/-- The `while attempt < max_attempts` loop of `with_async_retry`. `f n` is
the outcome of the `n`-th invocation (0-based); `fuel` equals
`max_attempts - attempt` and makes the recursion structural. -/
def with_async_retry_loop (f : Nat → Except ε α) (max_attempts base_delay max_delay : Nat) :
    Nat → Nat → RetryTrace ε α
  | _, 0 => ⟨.internalError, 0, []⟩
  | attempt, fuel + 1 =>
    match f attempt with
    | .ok a => ⟨.ok a, 1, []⟩
    | .error e =>
      if attempt + 1 ≥ max_attempts then ⟨.err e, 1, []⟩
      else
        let d := min (base_delay * 2 ^ (attempt + 1 - 1)) max_delay
        let t := with_async_retry_loop f max_attempts base_delay max_delay (attempt + 1) fuel
        ⟨t.result, t.calls + 1, d :: t.delays⟩

/-- `with_async_retry(func, max_attempts, base_delay, max_delay)`. -/
def with_async_retry (f : Nat → Except ε α) (max_attempts base_delay max_delay : Nat) :
    RetryTrace ε α :=
  with_async_retry_loop f max_attempts base_delay max_delay 0 max_attempts

/-- Modelled from the spec: `with_retry` builds its wait schedule with the
third-party `tenacity.wait_exponential(multiplier=base_delay, max=max_delay)`,
whose source is not part of this repository. Per the spec of the blocking
retry form, the wait after `attempt_number` completed attempts is the
exponential `multiplier * 2 ^ (attempt_number - 1)` clamped above by
`max_delay` (and below by the tenacity default minimum of 0). -/
def wait_exponential (multiplier max_delay : Nat) (attempt_number : Nat) : Nat :=
  max 0 (min (multiplier * 2 ^ (attempt_number - 1)) max_delay)

/-- The delay `with_retry(max_attempts, base_delay, max_delay)` sleeps before
attempt `k + 1`, i.e. the tenacity wait function after `k` completed attempts. -/
def with_retry_delay (base_delay max_delay k : Nat) : Nat :=
  wait_exponential base_delay max_delay k

/-! ## In-process TTL cache (`cache.py`, class `TTLCache`)

The Python dict `self._cache : dict[str, tuple[Any, float]]` is modelled as an
association list with at most one entry per key; `time.time()` is an `Int`
argument on each operation. -/

/-- One stored entry: key, value, storage timestamp. -/
abbrev CacheEntry (α : Type) := String × α × Int

/-- Dictionary lookup `self._cache[key]`. -/
def lookupKey (key : String) : List (CacheEntry α) → Option (α × Int)
  | [] => none
  | (k, v, t) :: rest => if k = key then some (v, t) else lookupKey key rest

/-- Dictionary removal `del self._cache[key]`. -/
def eraseKey (key : String) (l : List (CacheEntry α)) : List (CacheEntry α) :=
  l.filter (fun e => e.1 ≠ key)

/-- `TTLCache`: entries plus the `ttl_seconds` constructor argument. -/
structure TTLCache (α : Type) where
  cache : List (CacheEntry α)
  ttl : Int
deriving DecidableEq

/-- `TTLCache.__init__(ttl_seconds)`: empty dictionary. -/
def TTLCache.init (ttl_seconds : Int) : TTLCache α :=
  { cache := [], ttl := ttl_seconds }

/-- `TTLCache.get`: return the value while `now - timestamp < ttl`, delete the
entry and return `None` once expired, return `None` on a missing key.
The possibly-shrunk cache is returned alongside the answer. -/
def TTLCache.get (c : TTLCache α) (key : String) (now : Int) : Option α × TTLCache α :=
  match lookupKey key c.cache with
  | some (v, ts) =>
    if now - ts < c.ttl then (some v, c)
    else (none, { c with cache := eraseKey key c.cache })
  | none => (none, c)

/-- `TTLCache.set`: store `(value, now)` under `key`, replacing any previous
entry for that key. -/
def TTLCache.set (c : TTLCache α) (key : String) (v : α) (now : Int) : TTLCache α :=
  { c with cache := (key, v, now) :: eraseKey key c.cache }

/-- `TTLCache.clear`. -/
def TTLCache.clear (c : TTLCache α) : TTLCache α :=
  { c with cache := [] }

/-- `TTLCache.cleanup_expired`: drop every entry with `now - ts >= ttl` and
return how many were dropped. -/
def TTLCache.cleanup_expired (c : TTLCache α) (now : Int) : Nat × TTLCache α :=
  let expired := c.cache.filter (fun e => now - e.2.2 ≥ c.ttl)
  (expired.length, { c with cache := c.cache.filter (fun e => ¬(now - e.2.2 ≥ c.ttl)) })

/-! ## Redis-backed cache (`cache.py`, class `RedisCache`)

The remote Redis database is modelled as an association list of entries with
an absolute expiry deadline (`setex` stores `now + ttl`); whether a given
network operation fails is an explicit boolean input of each call. -/

/-- The remote store: key, value, expiry deadline. -/
abbrev RedisState (α : Type) := List (String × α × Int)

/-- `RedisCache` instance fields: `_connected`, whether `_client` is not
`None`, and the `_fallback_cache` attribute (absent until first created). -/
structure RedisCache (α : Type) where
  ttl : Int
  connected : Bool
  client : Bool
  fallback : Option (TTLCache α)
deriving DecidableEq

/-- A `RedisCache` whose constructor reached the distributed backend: the
ping succeeded, so no fallback attribute exists yet. -/
def RedisCache.initConnected (ttl_seconds : Int) : RedisCache α :=
  { ttl := ttl_seconds, connected := true, client := true, fallback := none }

/-- The `if not hasattr(self, "_fallback_cache")` construction of the
in-process fallback inside the exception handlers. -/
def RedisCache.ensure_fallback (c : RedisCache α) : RedisCache α :=
  match c.fallback with
  | some _ => c
  | none => { c with fallback := some (TTLCache.init c.ttl) }

/-- The fallback cache the non-connected paths read (`self._fallback_cache`);
the attribute always exists on those paths in reachable states. -/
def RedisCache.fallbackCache (c : RedisCache α) : TTLCache α :=
  c.fallback.getD (TTLCache.init c.ttl)

/-- `RedisCache.get`. Returns the value, the updated instance, and whether the
distributed backend was attempted. `opFails` injects a
`ConnectionError`/`RedisError` into the `try` block. -/
def RedisCache.get (c : RedisCache α) (redis : RedisState α) (key : String) (now : Int)
    (opFails : Bool) : Option α × RedisCache α × Bool :=
  if ¬c.connected ∨ ¬c.client then
    let res := c.fallbackCache.get key now
    (res.1, { c with fallback := some res.2 }, false)
  else if opFails then
    let c' := RedisCache.ensure_fallback { c with connected := false }
    let res := c'.fallbackCache.get key now
    (res.1, { c' with fallback := some res.2 }, true)
  else
    match lookupKey key redis with
    | some (v, deadline) => (if now < deadline then some v else none, c, true)
    | none => (none, c, true)

/-- `RedisCache.set` (`setex key ttl value`). Returns the updated instance,
the updated remote store, and whether the distributed backend was attempted. -/
def RedisCache.set (c : RedisCache α) (redis : RedisState α) (key : String) (v : α)
    (now : Int) (opFails : Bool) : RedisCache α × RedisState α × Bool :=
  if ¬c.connected ∨ ¬c.client then
    ({ c with fallback := some (c.fallbackCache.set key v now) }, redis, false)
  else if opFails then
    let c' := RedisCache.ensure_fallback { c with connected := false }
    ({ c' with fallback := some (c'.fallbackCache.set key v now) }, redis, true)
  else
    (c, (key, v, now + c.ttl) :: eraseKey key redis, true)

/-- `RedisCache.clear` (`flushdb`). On failure the handler builds the fallback
and clears it, but — unlike `get` and `set` — never sets `_connected = False`. -/
def RedisCache.clear (c : RedisCache α) (redis : RedisState α) (opFails : Bool) :
    RedisCache α × RedisState α × Bool :=
  if ¬c.connected ∨ ¬c.client then
    ({ c with fallback := some c.fallbackCache.clear }, redis, false)
  else if opFails then
    let c' := RedisCache.ensure_fallback c
    ({ c' with fallback := some c'.fallbackCache.clear }, redis, true)
  else
    (c, [], true)

/-- One cache operation with its injected failure flag. -/
inductive CacheOp (α : Type)
  | get (key : String) (now : Int) (fails : Bool)
  | set (key : String) (v : α) (now : Int) (fails : Bool)
  | clear (fails : Bool)

/-- Applying one operation: updated instance, updated remote store, and
whether the distributed backend was attempted. -/
def CacheOp.apply (c : RedisCache α) (redis : RedisState α) :
    CacheOp α → RedisCache α × RedisState α × Bool
  | .get key now fails =>
    let (_, c', used) := c.get redis key now fails
    (c', redis, used)
  | .set key v now fails => c.set redis key v now fails
  | .clear fails => c.clear redis fails

/-- Running a sequence of operations, collecting the per-operation
"attempted the distributed backend" flags. -/
def runCacheOps (c : RedisCache α) (redis : RedisState α) :
    List (CacheOp α) → RedisCache α × RedisState α × List Bool
  | [] => (c, redis, [])
  | op :: rest =>
    let (c', redis', used) := op.apply c redis
    let (c'', redis'', flags) := runCacheOps c' redis' rest
    (c'', redis'', used :: flags)

/-! ## The `cached` decorator (`cache.py`)

The wrapper treats `cache.get(key)` returning Python `None` as a miss
(`if cached_value is not None`). Python values that may themselves be `None`
are modelled as `Option β`, the cache storing values of that type. -/

/-- One call of the wrapped function. `f n` is the result of the `n`-th
underlying invocation; `ncalls` counts underlying invocations so far.
Returns the result of the call, the updated cache, and the new invocation count. -/
def cachedCall (f : Nat → Option β) (key : String) (c : TTLCache (Option β)) (ncalls : Nat)
    (now : Int) : Option β × TTLCache (Option β) × Nat :=
  let res := c.get key now
  let cached_value : Option β :=
    match res.1 with
    | some v => v
    | none => none
  if cached_value.isSome then (cached_value, res.2, ncalls)
  else
    let result := f ncalls
    (result, res.2.set key result now, ncalls + 1)

/-- `m` successive calls of the wrapper with the same key, call `i` happening
at time `tau i`, starting from the fresh `TTLCache(ttl)` the decorator builds. -/
def cachedCalls (f : Nat → Option β) (key : String) (ttl : Int) (tau : Nat → Int) :
    Nat → TTLCache (Option β) × Nat
  | 0 => (TTLCache.init ttl, 0)
  | m + 1 =>
    let prev := cachedCalls f key ttl tau m
    let step := cachedCall f key prev.1 prev.2 (tau m)
    (step.2.1, step.2.2)

/-! ## Phased analysis runner (`phased_analysis.py` / `run_snapshot.py`)

`run_analysis_for_run_id` drives four persisted phases — `market`, `news`,
`signal`, `report` — over a run document created by
`init_run_document_async`. Database writes are modelled as always
succeeding (the source logs and swallows their failures). The output payload of a stage is modelled by a presence flag on the document. -/

/-- The four persisted phase names. -/
inductive Phase
  | market
  | news
  | signal
  | report
deriving DecidableEq

/-- A phase status in the `status` mapping of the run document. -/
inductive PhaseStatus
  | pending
  | done
  | error
deriving DecidableEq

/-- The run document fields touched by `update_run_phase_async`: one status
per phase and a presence flag per payload field (`False` renders the empty
initial payload). -/
structure RunDoc where
  statusMarket : PhaseStatus
  statusNews : PhaseStatus
  statusSignal : PhaseStatus
  statusReport : PhaseStatus
  market_snapshot : Bool
  event_context : Bool
  market_options : Bool
  news_context : Bool
  signal : Bool
  decision : Bool
  report : Bool
deriving DecidableEq

/-- `init_run_document_async`: every phase `pending`, every payload empty. -/
def init_run_document : RunDoc :=
  { statusMarket := .pending, statusNews := .pending
    statusSignal := .pending, statusReport := .pending
    market_snapshot := false, event_context := false, market_options := false
    news_context := false, signal := false, decision := false, report := false }

/-- Which payload fields a `data` dict passed to `update_run_phase_async`
contains (with a non-empty payload). -/
structure PhaseData where
  market_snapshot : Bool := false
  event_context : Bool := false
  market_options : Bool := false
  news_context : Bool := false
  signal : Bool := false
  decision : Bool := false
  report : Bool := false
deriving DecidableEq

/-- `update_run_phase_async(run_id, phase, status, data)`: unconditionally
overwrite `status.{phase}`, then merge the payload fields the matching phase
branch recognises. `data = none` renders the `data=None` default. -/
def update_run_phase (d : RunDoc) (p : Phase) (s : PhaseStatus) (data : Option PhaseData) :
    RunDoc :=
  let d' :=
    match p with
    | .market => { d with statusMarket := s }
    | .news => { d with statusNews := s }
    | .signal => { d with statusSignal := s }
    | .report => { d with statusReport := s }
  match data with
  | none => d'
  | some pd =>
    match p with
    | .market =>
      { d' with
        market_snapshot := if pd.market_snapshot then true else d'.market_snapshot
        event_context := if pd.event_context then true else d'.event_context
        market_options := if pd.market_options then true else d'.market_options }
    | .news =>
      { d' with news_context := if pd.news_context then true else d'.news_context }
    | .signal =>
      { d' with
        signal := if pd.signal then true else d'.signal
        decision := if pd.decision then true else d'.decision }
    | .report =>
      { d' with report := if pd.report then true else d'.report }

/-- One recorded call to `update_run_phase_async`. -/
structure RunUpdate where
  phase : Phase
  status : PhaseStatus
  data : Option PhaseData
deriving DecidableEq

/-- The outcome `run_analysis_for_run_id` hands back to its caller. -/
inductive RunOutcome
  | completed
  | needsSelection
  | raised
deriving DecidableEq

/-- How each stage group behaves in one run: whether the phase-1 agents
(market/event), the phase-2 agents (news pipeline) or the phase-3 agents
(prob/strategy/report) raise, and whether phase 1 sets
`requires_market_selection`. -/
structure StageOutcomes where
  phase1Raises : Bool
  requiresSelection : Bool
  phase2Raises : Bool
  phase3Raises : Bool
deriving DecidableEq

/-- The `except` handler: `for phase in ["market", "news", "signal", "report"]:
update_run_phase_async(run_id, phase, "error")`. -/
def error_updates : List RunUpdate :=
  [⟨.market, .error, none⟩, ⟨.news, .error, none⟩,
   ⟨.signal, .error, none⟩, ⟨.report, .error, none⟩]

/-- The sequence of `update_run_phase_async` calls `run_analysis_for_run_id`
performs for the given stage outcomes, and what it returns to the caller. -/
def run_updates (o : StageOutcomes) : List RunUpdate × RunOutcome :=
  if o.phase1Raises then (error_updates, .raised)
  else if o.requiresSelection then
    ([⟨.market, .done, some { event_context := true, market_options := true }⟩],
     .needsSelection)
  else
    let u1 : RunUpdate := ⟨.market, .done, some { market_snapshot := true, event_context := true }⟩
    if o.phase2Raises then (u1 :: error_updates, .raised)
    else
      let u2 : RunUpdate := ⟨.news, .done, some { news_context := true }⟩
      if o.phase3Raises then (u1 :: u2 :: error_updates, .raised)
      else
        ([u1, u2, ⟨.signal, .done, some { signal := true, decision := true }⟩,
          ⟨.report, .done, some { report := true }⟩],
         .completed)

/-- Applying a sequence of phase updates to a run document. -/
def apply_updates (d : RunDoc) : List RunUpdate → RunDoc
  | [] => d
  | u :: rest => apply_updates (update_run_phase d u.phase u.status u.data) rest

/-- `run_analysis_for_run_id` end to end: final run document and outcome,
starting from the freshly initialised document. -/
def run_analysis (o : StageOutcomes) : RunDoc × RunOutcome :=
  (apply_updates init_run_document (run_updates o).1, (run_updates o).2)

/-- No phase of the document is still `pending`. -/
def noPendingPhase (d : RunDoc) : Prop :=
  d.statusMarket ≠ .pending ∧ d.statusNews ≠ .pending ∧
  d.statusSignal ≠ .pending ∧ d.statusReport ≠ .pending

instance (d : RunDoc) : Decidable (noPendingPhase d) := by
  unfold noPendingPhase; infer_instance

/-! ## Theorems -/

/-- C1: with phase 1 (market) succeeding and being marked `done` with its
output persisted, and phase 2 (news) raising, `run_analysis_for_run_id` does
NOT leave the market phase `done`: its error handler loops over all four
phases and overwrites `status.market` to `error` as well. The persisted
market output does remain present and the later outputs absent, and the
exception propagates (`raised`). This evaluates the code at the failing input of the claim, exhibiting the divergence from the claimed `A=done`. -/
theorem run_analysis_fatal_phase2_overwrites_done_market :
    (run_analysis ⟨false, false, true, false⟩).1.statusMarket = .error ∧
    (run_analysis ⟨false, false, true, false⟩).1.statusMarket ≠ .done ∧
    (run_analysis ⟨false, false, true, false⟩).1.statusNews = .error ∧
    (run_analysis ⟨false, false, true, false⟩).1.statusSignal = .error ∧
    (run_analysis ⟨false, false, true, false⟩).1.statusReport = .error ∧
    (run_analysis ⟨false, false, true, false⟩).1.market_snapshot = true ∧
    (run_analysis ⟨false, false, true, false⟩).1.news_context = false ∧
    (run_analysis ⟨false, false, true, false⟩).1.report = false ∧
    (run_analysis ⟨false, false, true, false⟩).2 = .raised := by
  decide

/-- C2: a phase status set to `done` is changed afterwards: when phase 2
raises, the market phase is first marked `done` (after the first update of
the run) and ends the run marked `error` — the status regresses from a
terminal value, contradicting the claimed pending-to-terminal-only moves. -/
theorem run_analysis_status_done_then_error :
    (apply_updates init_run_document
        ((run_updates ⟨false, false, true, false⟩).1.take 1)).statusMarket = .done ∧
    (apply_updates init_run_document
        (run_updates ⟨false, false, true, false⟩).1).statusMarket = .error := by
  decide

/-- C3 counterexample: on the early "market selection required" stop the
runner returns `needsSelection` with the news, signal and report phases all
still `pending` — a termination path that leaves phases non-terminal. -/
theorem run_analysis_needs_selection_leaves_pending :
    (run_analysis ⟨false, true, false, false⟩).2 = .needsSelection ∧
    ¬ noPendingPhase (run_analysis ⟨false, true, false, false⟩).1 ∧
    (run_analysis ⟨false, true, false, false⟩).1.statusNews = .pending ∧
    (run_analysis ⟨false, true, false, false⟩).1.statusSignal = .pending ∧
    (run_analysis ⟨false, true, false, false⟩).1.statusReport = .pending := by
  decide

/-- C3 amended: on normal completion and on a fatal stage error no phase is
left `pending`; on the early needs-input stop the market phase is `done` and
the three later phases remain `pending` (awaiting the selection from the caller). -/
theorem run_analysis_terminal_statuses (o : StageOutcomes) :
    ((run_analysis o).2 ≠ .needsSelection → noPendingPhase (run_analysis o).1) ∧
    ((run_analysis o).2 = .needsSelection →
      (run_analysis o).1.statusMarket = .done ∧
      (run_analysis o).1.statusNews = .pending ∧
      (run_analysis o).1.statusSignal = .pending ∧
      (run_analysis o).1.statusReport = .pending) := by
  obtain ⟨a, b, c, d⟩ := o
  cases a <;> cases b <;> cases c <;> cases d <;> decide

/-- C3 amended, witness: the all-stages-succeed run completes with every
phase terminal. -/
theorem run_analysis_terminal_statuses_witness :
    ((run_analysis ⟨false, false, false, false⟩).2 ≠ .needsSelection →
      noPendingPhase (run_analysis ⟨false, false, false, false⟩).1) ∧
    ((run_analysis ⟨false, false, false, false⟩).2 = .needsSelection →
      (run_analysis ⟨false, false, false, false⟩).1.statusMarket = .done ∧
      (run_analysis ⟨false, false, false, false⟩).1.statusNews = .pending ∧
      (run_analysis ⟨false, false, false, false⟩).1.statusSignal = .pending ∧
      (run_analysis ⟨false, false, false, false⟩).1.statusReport = .pending) :=
  run_analysis_terminal_statuses ⟨false, false, false, false⟩

/-- Helper: `record_failure` never changes the failure threshold. -/
theorem record_failure_threshold_eq (b : CircuitBreaker) (t : Int) :
    (b.record_failure t).failure_threshold = b.failure_threshold := by
  simp only [CircuitBreaker.record_failure]
  split
  · rfl
  · split <;> rfl

/-- Helper: `record_failure` never changes the timeout. -/
theorem record_failure_timeout_eq (b : CircuitBreaker) (t : Int) :
    (b.record_failure t).timeout = b.timeout := by
  simp only [CircuitBreaker.record_failure]
  split
  · rfl
  · split <;> rfl

/-- Helper: iterated failures never change the failure threshold. -/
theorem iterate_failures_threshold_eq (b : CircuitBreaker) (ts : Nat → Int) (k : Nat) :
    (b.iterate_failures ts k).failure_threshold = b.failure_threshold := by
  induction k with
  | zero => rfl
  | succ j ihj =>
    simp only [CircuitBreaker.iterate_failures, record_failure_threshold_eq]
    exact ihj

/-- Helper: iterated failures never change the timeout. -/
theorem iterate_failures_timeout_eq (b : CircuitBreaker) (ts : Nat → Int) (k : Nat) :
    (b.iterate_failures ts k).timeout = b.timeout := by
  induction k with
  | zero => rfl
  | succ j ihj =>
    simp only [CircuitBreaker.iterate_failures, record_failure_timeout_eq]
    exact ihj

/-- Helper: below the threshold, iterated failures keep the initial breaker
CLOSED and count each failure. -/
theorem iterate_failures_below_threshold (N S : Nat) (T : Int) (ts : Nat → Int) :
    ∀ i, i < N →
      ((CircuitBreaker.init N S T).iterate_failures ts i).state = .closed ∧
      ((CircuitBreaker.init N S T).iterate_failures ts i).failure_count = i := by
  intro i
  induction i with
  | zero => intro _; exact ⟨rfl, rfl⟩
  | succ k ih =>
    intro h
    obtain ⟨h1, h2⟩ := ih (Nat.lt_of_succ_lt h)
    have hth := iterate_failures_threshold_eq (CircuitBreaker.init N S T) ts k
    have hcond : ¬ (k + 1 ≥ N) := by omega
    simp only [CircuitBreaker.iterate_failures, CircuitBreaker.record_failure, h1, h2, hth]
    simp [hcond, CircuitBreaker.init]

/-- Helper: a CLOSED breaker whose incremented count reaches the threshold
opens on `record_failure`, stamping the failure time. -/
theorem record_failure_opens (b : CircuitBreaker) (t : Int)
    (hs : b.state = .closed) (hc : b.failure_count + 1 ≥ b.failure_threshold) :
    (b.record_failure t).state = .opened ∧
    (b.record_failure t).last_failure_time = some t ∧
    (b.record_failure t).timeout = b.timeout := by
  have h1 : ¬ (b.state = CircuitState.halfOpen) := by simp [hs]
  simp only [CircuitBreaker.record_failure]
  simp [h1, hc]

/-- Helper: an OPEN breaker refuses attempts while the timeout has not
elapsed since the recorded failure time. -/
theorem can_attempt_open_false (b : CircuitBreaker) (now t : Int)
    (hs : b.state = .opened) (hl : b.last_failure_time = some t)
    (h : now - t < b.timeout) : (b.can_attempt now).1 = false := by
  have hlt : ¬ (now - t ≥ b.timeout) := by omega
  simp [CircuitBreaker.can_attempt, hs, hl, hlt]

/-- C6: from a fresh breaker with `failure_threshold = N ≥ 1` and positive
timeout, the breaker is still CLOSED after each of the first `N - 1` failures
(`i < N` covers them all), transitions to OPEN on exactly the Nth
`record_failure`, and `can_attempt` invoked before the timeout has elapsed
since that Nth failure returns `false`. -/
theorem circuit_breaker_opens_on_nth_failure (N S : Nat) (T : Int) (ts : Nat → Int)
    (now : Int) (i : Nat) (hN : 1 ≤ N) (hT : 0 < T) (hi : i < N)
    (hnow : now - ts (N - 1) < T) :
    ((CircuitBreaker.init N S T).iterate_failures ts i).state = .closed ∧
    ((CircuitBreaker.init N S T).iterate_failures ts N).state = .opened ∧
    (((CircuitBreaker.init N S T).iterate_failures ts N).can_attempt now).1 = false := by
  obtain ⟨hc, _⟩ := iterate_failures_below_threshold N S T ts i hi
  obtain ⟨h1, h2⟩ := iterate_failures_below_threshold N S T ts (N - 1) (by omega)
  have hth : ((CircuitBreaker.init N S T).iterate_failures ts (N - 1)).failure_threshold = N :=
    iterate_failures_threshold_eq (CircuitBreaker.init N S T) ts (N - 1)
  have hto : ((CircuitBreaker.init N S T).iterate_failures ts (N - 1)).timeout = T :=
    iterate_failures_timeout_eq (CircuitBreaker.init N S T) ts (N - 1)
  have hNsucc : N = (N - 1) + 1 := by omega
  have hstep :
      (CircuitBreaker.init N S T).iterate_failures ts N =
        ((CircuitBreaker.init N S T).iterate_failures ts (N - 1)).record_failure (ts (N - 1)) := by
    have := congrArg (fun n => (CircuitBreaker.init N S T).iterate_failures ts n) hNsucc
    simpa only [CircuitBreaker.iterate_failures] using this
  have hcount :
      ((CircuitBreaker.init N S T).iterate_failures ts (N - 1)).failure_count + 1 ≥
        ((CircuitBreaker.init N S T).iterate_failures ts (N - 1)).failure_threshold := by
    rw [h2, hth]; omega
  obtain ⟨ho, hl, htm⟩ :=
    record_failure_opens ((CircuitBreaker.init N S T).iterate_failures ts (N - 1))
      (ts (N - 1)) h1 hcount
  refine ⟨hc, ?_, ?_⟩
  · rw [hstep]; exact ho
  · rw [hstep]
    exact can_attempt_open_false _ now (ts (N - 1)) ho hl (by rw [htm, hto]; exact hnow)

/-- C6 witness: threshold 2, timeout 5, failures at times 0 and 1, probe at
time 1. -/
theorem circuit_breaker_opens_on_nth_failure_witness :
    ((CircuitBreaker.init 2 2 5).iterate_failures (fun i => (i : Int)) 1).state = .closed ∧
    ((CircuitBreaker.init 2 2 5).iterate_failures (fun i => (i : Int)) 2).state = .opened ∧
    (((CircuitBreaker.init 2 2 5).iterate_failures (fun i => (i : Int)) 2).can_attempt 1).1
      = false :=
  circuit_breaker_opens_on_nth_failure 2 2 5 (fun i => (i : Int)) 1 1
    (by decide) (by decide) (by decide) (by decide)

/-- Helper: every breaker operation preserves the specification invariant
(for thresholds at least 1) and leaves the threshold unchanged. -/
theorem breakerInv_step (b : CircuitBreaker) (op : BreakerOp)
    (hthr : 1 ≤ b.failure_threshold) (h : breakerInv b) :
    breakerInv (op.apply b) ∧ (op.apply b).failure_threshold = b.failure_threshold := by
  obtain ⟨hopen, hclosed⟩ := h
  cases op <;> rcases hs : b.state <;> rcases hl : b.last_failure_time with _ | t0 <;>
    simp_all [BreakerOp.apply, CircuitBreaker.record_success, CircuitBreaker.record_failure,
      CircuitBreaker.can_attempt, CircuitBreaker.reset, breakerInv] <;>
    (try split_ifs) <;> (try simp_all) <;> (try omega)

/-- Helper: the invariant is preserved along any operation sequence. -/
theorem breakerInv_foldl (ops : List BreakerOp) :
    ∀ b : CircuitBreaker, 1 ≤ b.failure_threshold → breakerInv b →
      breakerInv (ops.foldl BreakerOp.apply b) := by
  induction ops with
  | nil => intro b _ h; exact h
  | cons op rest ih =>
    intro b hthr h
    obtain ⟨h1, h2⟩ := breakerInv_step b op hthr h
    exact ih (op.apply b) (h2 ▸ hthr) h1

/-- C7: for every breaker constructed with `failure_threshold = N ≥ 1` and
every sequence of `record_success` / `record_failure` / `can_attempt` /
`reset` operations from the initial CLOSED state, the invariant holds:
OPEN implies `last_failure_time` is set, and CLOSED implies
`failure_count < failure_threshold`. -/
theorem circuit_breaker_invariant (N S : Nat) (T : Int) (ops : List BreakerOp)
    (hN : 1 ≤ N) :
    breakerInv (ops.foldl BreakerOp.apply (CircuitBreaker.init N S T)) := by
  refine breakerInv_foldl ops (CircuitBreaker.init N S T) hN ?_
  exact ⟨fun h => by simp [CircuitBreaker.init] at h, fun _ => hN⟩

/-- C7 witness: a concrete operation sequence that opens, probes, reopens
and resets a threshold-1 breaker. -/
theorem circuit_breaker_invariant_witness :
    breakerInv ([BreakerOp.failure 0, BreakerOp.attempt 5, BreakerOp.failure 6,
        BreakerOp.attempt 20, BreakerOp.success, BreakerOp.reset].foldl
      BreakerOp.apply (CircuitBreaker.init 1 1 2)) :=
  circuit_breaker_invariant 1 1 2
    [BreakerOp.failure 0, BreakerOp.attempt 5, BreakerOp.failure 6,
     BreakerOp.attempt 20, BreakerOp.success, BreakerOp.reset] (by decide)

/-- Helper: with an always-failing operation, the retry loop started at
`attempt` with `fuel = max_attempts - attempt` makes exactly `fuel` calls and
ends with the error of the last (index `max_attempts - 1`) invocation. -/
theorem with_async_retry_loop_exhausts (f : Nat → Except ε α) (es : Nat → ε)
    (hf : ∀ n, f n = .error (es n)) (M base maxD : Nat) :
    ∀ fuel attempt, attempt + fuel = M → 1 ≤ fuel →
      (with_async_retry_loop f M base maxD attempt fuel).result = .err (es (M - 1)) ∧
      (with_async_retry_loop f M base maxD attempt fuel).calls = fuel := by
  intro fuel
  induction fuel with
  | zero => intro _ _ h; omega
  | succ g ih =>
    intro attempt hM _
    simp only [with_async_retry_loop, hf attempt]
    by_cases hstop : attempt + 1 ≥ M
    · have hg0 : g = 0 := by omega
      have hlast : attempt = M - 1 := by omega
      have hc : M ≤ attempt + 1 := hstop
      have hc2 : M ≤ M - 1 + 1 := by omega
      simp [hc, hc2, hg0, hlast]
    · have hg : 1 ≤ g := by omega
      obtain ⟨ih1, ih2⟩ := ih (attempt + 1) (by omega) hg
      simp [hstop, ih1, ih2]

/-- C9: an always-failing operation under `with_async_retry` with
`max_attempts = M ≥ 1` is invoked exactly M times, and the propagated
failure is the exception of the Mth (last, 0-based index `M - 1`) attempt. -/
theorem with_async_retry_exhaustion (f : Nat → Except ε α) (es : Nat → ε)
    (M base maxD : Nat) (hf : ∀ n, f n = .error (es n)) (hM : 1 ≤ M) :
    (with_async_retry f M base maxD).result = .err (es (M - 1)) ∧
    (with_async_retry f M base maxD).calls = M :=
  with_async_retry_loop_exhausts f es hf M base maxD M 0 (by omega) hM

/-- C9 witness: an operation failing with its call index, three attempts. -/
theorem with_async_retry_exhaustion_witness :
    (with_async_retry (fun n => (Except.error n : Except Nat Unit)) 3 1 60).result =
      .err 2 ∧
    (with_async_retry (fun n => (Except.error n : Except Nat Unit)) 3 1 60).calls = 3 :=
  with_async_retry_exhaustion (fun n => Except.error n) (fun n => n) 3 1 60
    (fun _ => rfl) (by decide)

/-- Helper: with an always-failing operation the recorded sleeps of the retry loop
are the clamped exponential schedule continuing from `attempt`. -/
theorem with_async_retry_loop_delays (f : Nat → Except ε α) (es : Nat → ε)
    (hf : ∀ n, f n = .error (es n)) (M base maxD : Nat) :
    ∀ fuel attempt, attempt + fuel = M →
      (with_async_retry_loop f M base maxD attempt fuel).delays =
        (List.range (fuel - 1)).map (fun j => min (base * 2 ^ (attempt + j)) maxD) := by
  intro fuel
  induction fuel with
  | zero => intro attempt _; simp [with_async_retry_loop]
  | succ g ih =>
    intro attempt hM
    simp only [with_async_retry_loop, hf attempt]
    by_cases hstop : attempt + 1 ≥ M
    · have hg : g = 0 := by omega
      simp [hstop, hg]
    · have hg : 1 ≤ g := by omega
      have ihg := ih (attempt + 1) (by omega)
      simp only [hstop, if_false, ihg]
      have hr : g + 1 - 1 = (g - 1) + 1 := by omega
      rw [hr, List.range_succ_eq_map]
      simp only [List.map_cons, List.map_map]
      have htail :
          List.map (fun j => base * 2 ^ (attempt + 1 + j) ⊓ maxD) (List.range (g - 1)) =
            List.map ((fun j => base * 2 ^ (attempt + j) ⊓ maxD) ∘ Nat.succ)
              (List.range (g - 1)) := by
        apply List.map_congr_left
        intro a _
        simp only [Function.comp_apply, Nat.succ_eq_add_one]
        have hj : attempt + 1 + a = attempt + (a + 1) := by omega
        rw [hj]
      rw [htail]
      simp

/-- C4: the blocking `with_retry` (via the exponential wait it configures)
and the non-blocking `with_async_retry` agree on backoff: for every
`max_attempts`, `base_delay`, `max_delay` and every `k ≥ 1` for which a
(k+1)-th attempt happens, the delay both forms wait before attempt `k + 1`
equals `min(base_delay * 2 ^ (k - 1), max_delay)`. -/
theorem retry_forms_same_backoff (f : Nat → Except ε α) (es : Nat → ε)
    (M base maxD k : Nat) (hf : ∀ n, f n = .error (es n)) (hk : 1 ≤ k)
    (hkM : k + 1 ≤ M) :
    (with_async_retry f M base maxD).delays[k - 1]? =
      some (min (base * 2 ^ (k - 1)) maxD) ∧
    with_retry_delay base maxD k = min (base * 2 ^ (k - 1)) maxD := by
  constructor
  · have hd := with_async_retry_loop_delays f es hf M base maxD M 0 (by omega)
    have hlt : k - 1 < M - 1 := by omega
    rw [with_async_retry, hd, List.getElem?_map]
    simp [List.getElem?_range, hlt]
  · simp [with_retry_delay, wait_exponential]

/-- C4 witness: base delay 3, cap 10, three attempts; the delay before the
second attempt is `min(3 * 2^0, 10) = 3` on both forms. -/
theorem retry_forms_same_backoff_witness :
    (with_async_retry (fun n => (Except.error n : Except Nat Unit)) 3 3 10).delays[0]? =
      some (min (3 * 2 ^ 0) 10) ∧
    with_retry_delay 3 10 1 = min (3 * 2 ^ 0) 10 :=
  retry_forms_same_backoff (fun n => Except.error n) (fun n => n) 3 3 10 1
    (fun _ => rfl) (by decide) (by decide)

/-- C8: a value stored at time `t` with `set` is returned by `get` at any
time with `t' - t < ttl` and absent (with the entry purged lazily) once
`t' - t ≥ ttl`; and `cleanup_expired` on a cache holding exactly two expired
entries and no live ones returns 2 and removes both. -/
theorem ttl_cache_expiry_and_cleanup {α : Type} (c c2 : TTLCache α) (key : String)
    (v : α) (t tg now : Int)
    (h1 : ∀ e ∈ c2.cache, now - e.2.2 ≥ c2.ttl) (h2 : c2.cache.length = 2) :
    ((c.set key v t).get key tg).1 = (if tg - t < c.ttl then some v else none) ∧
    (c2.cleanup_expired now).1 = 2 ∧ (c2.cleanup_expired now).2.cache = [] := by
  refine ⟨?_, ?_, ?_⟩
  · simp only [TTLCache.set, TTLCache.get, lookupKey, if_pos]
    split <;> rfl
  · have heq : c2.cache.filter (fun e => decide (now - e.2.2 ≥ c2.ttl)) = c2.cache :=
      List.filter_eq_self.mpr (fun a ha => decide_eq_true (h1 a ha))
    simp only [TTLCache.cleanup_expired, ge_iff_le, heq]
    exact h2
  · have heq : c2.cache.filter (fun e => decide (¬ (now - e.2.2 ≥ c2.ttl))) = [] := by
      apply List.filter_eq_nil_iff.mpr
      intro a ha
      simp [h1 a ha]
    simp only [TTLCache.cleanup_expired, ge_iff_le, heq]

/-- C8 witness: ttl 2, two entries stored at times 0 and 1, cleanup at time
10; the set/get half probed within and past the ttl. -/
theorem ttl_cache_expiry_and_cleanup_witness :
    (((TTLCache.mk ([] : List (CacheEntry Nat)) 5).set "k" 7 0).get "k" 1).1 =
      (if (1 : Int) - 0 < (TTLCache.mk ([] : List (CacheEntry Nat)) 5).ttl
        then some 7 else none) ∧
    ((TTLCache.mk [("a", (0 : Nat), (0 : Int)), ("b", 1, 1)] 2).cleanup_expired 10).1 = 2 ∧
    ((TTLCache.mk [("a", (0 : Nat), (0 : Int)), ("b", 1, 1)] 2).cleanup_expired 10).2.cache
      = [] :=
  ttl_cache_expiry_and_cleanup (TTLCache.mk [] 5)
    (TTLCache.mk [("a", 0, 0), ("b", 1, 1)] 2) "k" 7 0 1 10
    (by decide) (by decide)

/-- Helper: building the fallback cache when missing does not touch the
`_connected` flag. -/
theorem ensure_fallback_connected {α : Type} (c : RedisCache α) :
    c.ensure_fallback.connected = c.connected := by
  unfold RedisCache.ensure_fallback
  rcases c.fallback <;> rfl

/-- Helper: a disconnected instance never attempts the distributed backend
and stays disconnected, whatever the operation and its failure flag. -/
theorem cacheOp_disconnected {α : Type} (c : RedisCache α) (r : RedisState α)
    (op : CacheOp α) (h : c.connected = false) :
    (op.apply c r).2.2 = false ∧ (op.apply c r).1.connected = false := by
  cases op <;>
    simp [CacheOp.apply, RedisCache.get, RedisCache.set, RedisCache.clear, h]

/-- Helper: from a disconnected instance, a whole operation sequence never
attempts the distributed backend and ends disconnected. -/
theorem runCacheOps_disconnected {α : Type} (ops : List (CacheOp α)) :
    ∀ (c : RedisCache α) (r : RedisState α), c.connected = false →
      (runCacheOps c r ops).2.2.all (fun u => !u) = true ∧
      (runCacheOps c r ops).1.connected = false := by
  induction ops with
  | nil => intro c r h; exact ⟨rfl, h⟩
  | cons op rest ih =>
    intro c r h
    obtain ⟨h1, h2⟩ := cacheOp_disconnected c r op h
    obtain ⟨h3, h4⟩ := ih (op.apply c r).1 (op.apply c r).2.1 h2
    simp [runCacheOps, h1, h3, h4]

/-- C5 counterexample: on a connected instance a failing `clear` does NOT
flip `_connected` (unlike `get`/`set`), so the very next `get` attempts the
distributed backend again — the claimed one-way downgrade on any failing
operation is false for `clear`. -/
theorem redis_clear_failure_keeps_distributed :
    (((RedisCache.initConnected 10 : RedisCache Nat).clear [] true).1).connected = true ∧
    ((((RedisCache.initConnected 10 : RedisCache Nat).clear [] true).1).get
        [] "k" 0 false).2.2 = true := by
  decide

/-- C5 amended: a failure during `get` or `set` permanently downgrades the
instance — `_connected` flips to false and from any disconnected instance no
later `get`/`set`/`clear` ever attempts the distributed backend (the ops all
use the in-process fallback and return normally). A failure during `clear`
only clears the fallback and does not downgrade. -/
theorem redis_downgrade_on_get_set_failure {α : Type} (c : RedisCache α)
    (r : RedisState α) (key : String) (v : α) (now : Int) (ops : List (CacheOp α))
    (hcl : c.client = true) :
    (c.connected = true →
      ((c.get r key now true).2.1.connected = false ∧
        (c.set r key v now true).1.connected = false)) ∧
    (c.connected = false →
      ((runCacheOps c r ops).2.2.all (fun u => !u) = true ∧
        (runCacheOps c r ops).1.connected = false)) := by
  constructor
  · intro hconn
    constructor
    · simp [RedisCache.get, hconn, hcl, ensure_fallback_connected]
    · simp [RedisCache.set, hconn, hcl, ensure_fallback_connected]
  · intro hdis
    exact runCacheOps_disconnected ops c r hdis

/-- C5 amended witness: a connected instance downgraded by a failing get,
then probed with a get, a set and a clear. -/
theorem redis_downgrade_on_get_set_failure_witness :
    ((RedisCache.initConnected 10 : RedisCache Nat).connected = true →
      (((RedisCache.initConnected 10 : RedisCache Nat).get [] "k" 0 true).2.1.connected
          = false ∧
        ((RedisCache.initConnected 10 : RedisCache Nat).set [] "k" 5 0 true).1.connected
          = false)) ∧
    ((RedisCache.initConnected 10 : RedisCache Nat).connected = false →
      ((runCacheOps (RedisCache.initConnected 10 : RedisCache Nat) []
          [CacheOp.get "k" 0 false, CacheOp.set "k" 5 0 false,
           CacheOp.clear true]).2.2.all (fun u => !u) = true ∧
        (runCacheOps (RedisCache.initConnected 10 : RedisCache Nat) []
          [CacheOp.get "k" 0 false, CacheOp.set "k" 5 0 false,
           CacheOp.clear true]).1.connected = false)) :=
  redis_downgrade_on_get_set_failure (RedisCache.initConnected 10) [] "k" 5 0
    [CacheOp.get "k" 0 false, CacheOp.set "k" 5 0 false, CacheOp.clear true] rfl

/-- Helper: a successful dictionary lookup comes from a member entry. -/
theorem lookupKey_mem {α : Type} (key : String) (l : List (CacheEntry α)) (v : α)
    (t : Int) (h : lookupKey key l = some (v, t)) : (key, v, t) ∈ l := by
  induction l with
  | nil => simp [lookupKey] at h
  | cons e rest ih =>
    obtain ⟨k, w, ts⟩ := e
    by_cases hk : k = key
    · subst hk
      simp only [lookupKey, if_pos] at h
      simp only [Option.some.injEq, Prod.mk.injEq] at h
      obtain ⟨rfl, rfl⟩ := h
      exact List.mem_cons_self _ _
    · simp only [lookupKey, if_neg hk] at h
      exact List.mem_cons_of_mem _ (ih h)

/-- Helper: a value returned by `TTLCache.get` is stored in the cache. -/
theorem ttl_get_some_mem {α : Type} (c : TTLCache α) (key : String) (now : Int) (v : α)
    (h : (c.get key now).1 = some v) : ∃ ts, (key, v, ts) ∈ c.cache := by
  unfold TTLCache.get at h
  rcases hl : lookupKey key c.cache with _ | ⟨w, ts⟩ <;> rw [hl] at h
  · simp at h
  · by_cases hc : now - ts < c.ttl
    · simp only [hc, if_true, Option.some.injEq] at h
      subst h
      exact ⟨ts, lookupKey_mem key c.cache w ts hl⟩
    · simp [hc] at h

/-- Helper: `TTLCache.get` only ever removes entries, so the surviving
entries were already stored. -/
theorem ttl_get_cache_subset {α : Type} (c : TTLCache α) (key : String) (now : Int) :
    ∀ e ∈ (c.get key now).2.cache, e ∈ c.cache := by
  intro e he
  unfold TTLCache.get at he
  rcases hl : lookupKey key c.cache with _ | ⟨w, ts⟩ <;> rw [hl] at he
  · exact he
  · by_cases hc : now - ts < c.ttl
    · simp only [hc, if_true] at he
      exact he
    · simp only [hc, if_false, eraseKey] at he
      exact List.mem_of_mem_filter he

/-- Helper: with an always-`None` function and a cache whose stored values
are all `None`, the wrapper always misses, re-invokes the function, stores
`None` again, and keeps the all-`None` shape with the key present. -/
theorem cachedCall_executes {β : Type} (f : Nat → Option β) (key : String)
    (c : TTLCache (Option β)) (n : Nat) (now : Int) (hf : ∀ k, f k = none)
    (hall : ∀ e ∈ c.cache, e.2.1 = none) :
    (cachedCall f key c n now).2.2 = n + 1 ∧
    (∀ e ∈ (cachedCall f key c n now).2.1.cache, e.2.1 = none) ∧
    (lookupKey key (cachedCall f key c n now).2.1.cache).isSome = true := by
  have hval : (match (c.get key now).1 with
      | some v => v
      | none => (none : Option β)) = none := by
    rcases hg : (c.get key now).1 with _ | v
    · rfl
    · obtain ⟨ts, hmem⟩ := ttl_get_some_mem c key now v hg
      simpa using hall (key, v, ts) hmem
  unfold cachedCall
  simp only [hval, Option.isSome_none, Bool.false_eq_true, if_false, hf n]
  refine ⟨trivial, ?_, ?_⟩
  · intro e he
    simp only [TTLCache.set] at he
    rcases List.mem_cons.mp he with h | h
    · subst h; rfl
    · simp only [eraseKey] at h
      exact hall e (ttl_get_cache_subset c key now e (List.mem_of_mem_filter h))
  · simp [TTLCache.set, lookupKey]

/-- Helper: over any number of wrapper calls of an always-`None` function,
the underlying function runs on every call, the cache holds only `None`
values, and from the first call on the key is stored. -/
theorem cachedCalls_always_miss {β : Type} (f : Nat → Option β) (key : String)
    (ttl : Int) (tau : Nat → Int) (hf : ∀ k, f k = none) (m : Nat) :
    (cachedCalls f key ttl tau m).2 = m ∧
    (∀ e ∈ (cachedCalls f key ttl tau m).1.cache, e.2.1 = none) ∧
    (1 ≤ m → (lookupKey key (cachedCalls f key ttl tau m).1.cache).isSome = true) := by
  induction m with
  | zero =>
    refine ⟨rfl, ?_, ?_⟩
    · intro e he
      simp [cachedCalls, TTLCache.init] at he
    · omega
  | succ p ih =>
    obtain ⟨ih1, ih2, _⟩ := ih
    obtain ⟨s1, s2, s3⟩ :=
      cachedCall_executes f key (cachedCalls f key ttl tau p).1
        (cachedCalls f key ttl tau p).2 (tau p) hf ih2
    refine ⟨?_, ?_, fun _ => ?_⟩
    · show (cachedCall f key (cachedCalls f key ttl tau p).1
          (cachedCalls f key ttl tau p).2 (tau p)).2.2 = p + 1
      rw [s1, ih1]
    · exact s2
    · exact s3

/-- C10: when the wrapped function returns `None`, its result is never served
from the cache — `cache.get` cannot distinguish the stored `None` from a
missing key, so across `m` wrapper calls with the same key the function is
re-executed all `m` times, even though after the first call `cache.set` has
stored the `None` result under the key (the key is present in the cache). -/
theorem cached_none_never_served {β : Type} (f : Nat → Option β) (key : String)
    (ttl : Int) (tau : Nat → Int) (m : Nat) (hf : ∀ k, f k = none) :
    (cachedCalls f key ttl tau m).2 = m ∧
    (1 ≤ m → (lookupKey key (cachedCalls f key ttl tau m).1.cache).isSome = true) := by
  obtain ⟨h1, _, h3⟩ := cachedCalls_always_miss f key ttl tau hf m
  exact ⟨h1, h3⟩

/-- C10 witness: two wrapper calls of a constantly-`None` function both
execute it, and the key is stored after them. -/
theorem cached_none_never_served_witness :
    (cachedCalls (fun _ => (none : Option Nat)) "k" 5 (fun _ => 0) 2).2 = 2 ∧
    (1 ≤ 2 →
      (lookupKey "k"
        (cachedCalls (fun _ => (none : Option Nat)) "k" 5 (fun _ => 0) 2).1.cache).isSome
          = true) :=
  cached_none_never_served (fun _ => none) "k" 5 (fun _ => 0) 2 (fun _ => rfl)
